import Mathlib

/-!
# LDR monitor: acquisition arithmetic, start-up sequence and task traces

A shallow embedding of the two FreeRTOS programs of the repository

* the queue variant, `src/pico_emb/main.c` (`read_ldr`, `vTaskDisplay`, `map`,
  `constrain`, `main`), and
* the store variant, `src/main/main.c` (`sensor_task`, `display_task`, `main`).

Conventions of the embedding:

* floating-point values are read as exact rationals (`ℚ`); rounding is not
  modelled;
* a division by a computed value goes through `fdiv`, which yields `none` when
  its denominator is zero, so that "the routine returns `some d`" says that no
  division with a zero denominator was evaluated on the path taken;
* `int` arithmetic is wrapped to 32 bits by `wrap32` and `/` on `int` truncates
  toward zero;
* the library function `sin` is a parameter; calls of the scheduler that may
  succeed or fail (`xSemaphoreTake`, `xQueueReceive`, the creation calls of
  `main`) take their outcome as a Boolean argument.
-/

namespace LdrMonitor

/-! ## Data model -/

/-- The record `SensorData` of `src/pico_emb/main.c`, lines 42-46. -/
structure SensorData where
  voltage : ℚ
  resistance : ℚ
  current : ℚ
  deriving DecidableEq

/-- The record `sensor_data_t` of `src/main/main.c`, lines 18-22. -/
structure sensor_data_t where
  voltage : ℚ
  resistance : ℚ
  current : ℚ
  deriving DecidableEq

/-- `#define FIXED_RESISTOR 10000.0` (`src/pico_emb/main.c`, line 28). -/
def FIXED_RESISTOR : ℚ := 10000

/-- `#define VCC 3.3` (`src/pico_emb/main.c`, line 29). -/
def VCC : ℚ := 33 / 10

/-- Division as evaluated by the program: `none` when the denominator is zero. -/
def fdiv (a b : ℚ) : Option ℚ :=
  if b = 0 then none else some (a / b)

/-! ## Queue variant: `read_ldr` -/

/-- The function `read_ldr` of `src/pico_emb/main.c`, lines 105-131; `adc_value`
is the code returned by `adc_read()`. -/
def read_ldr (adc_value : Nat) : Option SensorData := do
  -- data.voltage = (adc_value * VCC) / 4095.0;
  let voltage ← fdiv ((adc_value : ℚ) * VCC) 4095
  -- if (data.voltage < VCC && data.voltage > 0) ... else data.resistance = 0;
  let resistance ←
    if voltage < VCC ∧ voltage > 0 then
      fdiv (FIXED_RESISTOR * voltage) (VCC - voltage)
    else
      pure 0
  -- if (data.resistance > 0) ... else data.current = 0;
  let current ←
    if resistance > 0 then
      (fdiv voltage resistance).map (fun q => q * 1000)
    else
      pure 0
  pure { voltage := voltage, resistance := resistance, current := current }

/-! ## Store variant: the loop body of `sensor_task` -/

/-- The measurement computed by one pass of the loop of `sensor_task`
(`src/main/main.c`, lines 35-49).  `adc_raw` is the code returned by
`adc_read()` and `sin_tc` is the value returned by the library call
`sin(time_counter)`. -/
def sensor_task_measure (adc_raw : Nat) (sin_tc : ℚ) : Option sensor_data_t := do
  -- local_data.voltage = (adc_raw * 3.3f) / 4095.0f;
  let voltage ← fdiv ((adc_raw : ℚ) * (33 / 10)) 4095
  -- local_data.resistance = 1000 + 500 * sin(time_counter);
  let resistance : ℚ := 1000 + 500 * sin_tc
  -- if (local_data.resistance > 0) ... else local_data.current = 0.0f;
  let current ←
    if resistance > 0 then
      (fdiv voltage resistance).map (fun q => q * 1000)
    else
      pure 0
  pure { voltage := voltage, resistance := resistance, current := current }

/-! ## Store variant: the shared store across cycles of `sensor_task` -/

/-- The state `sensor_task` carries from one pass of its loop to the next: the
shared store `sensor_readings` (`src/main/main.c`, line 25) and the function's
`static float time_counter` (line 40). -/
structure SensorTaskState where
  sensor_readings : sensor_data_t
  time_counter : ℚ
  deriving DecidableEq

/-- The state at program start: `sensor_readings = {0.0, 0.0, 0.0}` and
`time_counter = 0`. -/
def SensorTaskState.init : SensorTaskState :=
  { sensor_readings := ⟨0, 0, 0⟩, time_counter := 0 }

/-- One pass of the loop of `sensor_task` (`src/main/main.c`, lines 34-61).
`sin` is the library function, `adc_raw` the code read in this pass, and
`lockOk` tells whether `xSemaphoreTake(data_mutex, pdMS_TO_TICKS(100))`
returned `pdTRUE`. -/
def sensor_task_cycle (sin : ℚ → ℚ) (st : SensorTaskState) (adc_raw : Nat) (lockOk : Bool) :
    Option SensorTaskState := do
  let local_data ← sensor_task_measure adc_raw (sin st.time_counter)
  -- time_counter += 0.1f;
  let time_counter := st.time_counter + 1 / 10
  if lockOk then
    -- sensor_readings = local_data;
    pure { sensor_readings := local_data, time_counter := time_counter }
  else
    pure { sensor_readings := st.sensor_readings, time_counter := time_counter }

/-- A finite sequence of passes of the loop of `sensor_task`, one pair
`(adc_raw, lockOk)` per pass. -/
def sensor_task_run (sin : ℚ → ℚ) : SensorTaskState → List (Nat × Bool) → Option SensorTaskState
  | st, [] => some st
  | st, c :: cs => do
    let st' ← sensor_task_cycle sin st c.1 c.2
    sensor_task_run sin st' cs

/-! ## Program start-up -/

/-- What `main` does from the creation of the first scheduler primitive on: the
creations with their outcome, the messages printed, the start of the scheduler
(which does not return) and the return from `main`. -/
inductive MainEvent where
  | createQueue (ok : Bool)
  | createMutex (ok : Bool)
  | createTask (name : String) (ok : Bool)
  | report (msg : String)
  | startScheduler
  | ret (code : Int)
  deriving DecidableEq

/-- The function `main` of `src/main/main.c`, lines 159-184, from the creation
of the mutex on.  The arguments tell whether `xSemaphoreCreateMutex` returned a
handle and whether each `xTaskCreate` returned `pdPASS`. -/
def store_main (mutexOk sensorOk displayOk : Bool) : List MainEvent :=
  [.createMutex mutexOk] ++
  if !mutexOk then
    [.report "ERRO: Failed to create mutex!", .ret (-1)]
  else
    [.report "Mutex created successfully", .createTask "Sensor" sensorOk] ++
    if !sensorOk then
      [.report "ERRO: Failed to create sensor task!", .ret (-1)]
    else
      [.createTask "Display" displayOk] ++
      if !displayOk then
        [.report "ERRO: Failed to create display task!", .ret (-1)]
      else
        [.report "Tasks created successfully",
         .report "Starting FreeRTOS scheduler...",
         .report "Connect potentiometer to GP26 for voltage reading",
         .startScheduler]

/-- The function `main` of `src/pico_emb/main.c`, lines 237-250, from the
creation of the queue on.  The arguments tell whether `xQueueCreate` and
`xSemaphoreCreateMutex` returned a handle and whether each `xTaskCreate`
returned `pdPASS`; the program inspects none of them. -/
def queue_main (queueOk mutexOk sensorOk displayOk : Bool) : List MainEvent :=
  [.createQueue queueOk,
   .createMutex mutexOk,
   .createTask "Sensor Task" sensorOk,
   .createTask "Display Task" displayOk,
   .report "Tasks criadas, iniciando scheduler...",
   .startScheduler]

/-! ## Integer helpers of the queue variant -/

/-- The value of a signed 32-bit `int` holding `z`: wrapping modulo `2^32` into
`[-2^31, 2^31)`. -/
def wrap32 (z : Int) : Int := (z + 2 ^ 31) % 2 ^ 32 - 2 ^ 31

/-- The function `map` of `src/pico_emb/main.c`, lines 213-215:
`(x - in_min) * (out_max - out_min) / (in_max - in_min) + out_min` on `int`,
every operation wrapped to 32 bits, `/` truncating toward zero as in C. -/
def map (x in_min in_max out_min out_max : Int) : Int :=
  wrap32 (wrap32 (Int.tdiv
    (wrap32 (wrap32 (x - in_min) * wrap32 (out_max - out_min)))
    (wrap32 (in_max - in_min))) + out_min)

/-- The function `constrain` of `src/pico_emb/main.c`, lines 218-222. -/
def constrain (x a b : Int) : Int :=
  if x < a then a else if x > b then b else x

/-- The light level of `vTaskDisplay` (`src/pico_emb/main.c`, lines 184-185) for
the resistance already converted to `int`. -/
def light_level (x : Int) : Int :=
  constrain (map x 100 10000 100 0) 0 100

/-- The fill width of `vTaskDisplay` (`src/pico_emb/main.c`, line 194):
`(light_level * 296) / 100`. -/
def bar_width (level : Int) : Int :=
  wrap32 (Int.tdiv (wrap32 (level * 296)) 100)

/-- Conversion of a floating-point value to `int`: the fraction is discarded
(truncation toward zero). -/
def truncToInt (q : ℚ) : Int := Int.tdiv q.num q.den

/-- The fill proportion the specification gives for the indicator bar:
`clamp((x - lo) / (hi - lo), 0, 1)`. -/
def specProportion (x lo hi : ℚ) : ℚ :=
  max 0 (min 1 ((x - lo) / (hi - lo)))

/-! ## Presentation tasks as event traces -/

/-- The two locks of the repository: `data_mutex` of `src/main/main.c`
(line 26) and `displayMutex` of `src/pico_emb/main.c` (line 51). -/
inductive Lock where
  | data_mutex
  | displayMutex
  deriving DecidableEq

/-- The colour constants passed to the display driver. -/
inductive Color where
  | BLACK | WHITE | RED | GREEN | CYAN | YELLOW
  deriving DecidableEq

/-- The text handed to the display driver: a literal, or a `sprintf` format
together with the value it formats. -/
inductive Text where
  | lit (s : String)
  | fmt (format : String) (value : ℚ)
  | fmtInt (format : String) (value : Int)
  deriving DecidableEq

/-- A call of the display driver. -/
inductive DrawOp where
  | fillRect (x y w h : Int) (c : Color)
  | drawRect (x y w h : Int) (c : Color)
  | setCursor (x y : Int)
  | setTextSize (n : Nat)
  | setTextColor (fg : Color)
  | setTextColorBg (fg bg : Color)
  | print (t : Text)
  deriving DecidableEq

/-- What one pass of a presentation task does, in order. -/
inductive Event where
  | queueReceive (ok : Bool)
  | take (l : Lock) (ok : Bool)
  | give (l : Lock)
  | copyStore (v : sensor_data_t)
  | draw (op : DrawOp)
  | delay (ms : Nat)
  deriving DecidableEq

/-- One pass of the loop of `display_task` (`src/main/main.c`, lines 84-128).
`lockOk` tells whether `xSemaphoreTake(data_mutex, pdMS_TO_TICKS(100))` returned
`pdTRUE`; `sensor_readings` is the content of the shared store when it is
copied into `current_data`. -/
def display_task_iteration (lockOk : Bool) (sensor_readings : sensor_data_t) : List Event :=
  [.take .data_mutex lockOk] ++
  (if lockOk then
    -- current_data = sensor_readings;
    let current_data := sensor_readings
    -- int bar_width = (int)((current_data.voltage / 3.3f) * 200);
    let bar_width : Int := truncToInt ((current_data.voltage / (33 / 10)) * 200)
    [.copyStore current_data,
     .give .data_mutex,
     .draw (.fillRect 20 100 280 120 .BLACK),
     .draw (.setCursor 20 100),
     .draw (.setTextSize 2),
     .draw (.setTextColorBg .GREEN .BLACK),
     .draw (.print (.fmt "V: %.2f V" current_data.voltage)),
     .draw (.setCursor 20 130),
     .draw (.setTextColorBg .YELLOW .BLACK),
     .draw (.print (.fmt "R: %.0f Ohm" current_data.resistance)),
     .draw (.setCursor 20 160),
     .draw (.setTextColorBg .CYAN .BLACK),
     .draw (.print (.fmt "I: %.2f mA" current_data.current)),
     .draw (.fillRect 20 200 200 15 .BLACK),
     .draw (.fillRect 20 200 bar_width 15 .GREEN),
     .draw (.drawRect 20 200 200 15 .WHITE),
     .draw (.setCursor 20 220),
     .draw (.setTextSize 1),
     .draw (.setTextColorBg .WHITE .BLACK),
     .draw (.print (.lit "Voltage Level 0-3.3V"))]
  else []) ++
  [.delay 500]

/-- One pass of the loop of `vTaskDisplay` (`src/pico_emb/main.c`,
lines 154-209).  `recvOk` tells whether `xQueueReceive` returned `pdTRUE` and
delivered `data`; `takeOk` whether `xSemaphoreTake(displayMutex, portMAX_DELAY)`
returned `pdTRUE`. -/
def vTaskDisplay_iteration (recvOk takeOk : Bool) (data : SensorData) : List Event :=
  [.queueReceive recvOk] ++
  (if recvOk then
    [.take .displayMutex takeOk] ++
    (if takeOk then
      -- int light_level = map(data.resistance, 100, 10000, 100, 0);
      -- light_level = constrain(light_level, 0, 100);
      let level : Int := light_level (truncToInt data.resistance)
      -- int bar_width = (light_level * 296) / 100;
      let width : Int := bar_width level
      let bar_color : Color :=
        if level > 70 then .GREEN else if level > 30 then .YELLOW else .RED
      [.draw (.fillRect 180 60 130 120 .BLACK),
       .draw (.setTextColor .YELLOW),
       .draw (.setCursor 180 60),
       .draw (.print (.fmt "%.2f V" data.voltage)),
       .draw (.setCursor 180 100),
       .draw (.print (if data.resistance < 1000 then .fmt "%.1f ohm" data.resistance
                      else .fmt "%.1f k" (data.resistance / 1000))),
       .draw (.setCursor 180 140),
       .draw (.print (.fmt "%.2f mA" data.current)),
       .draw (.fillRect 10 190 300 30 .BLACK),
       .draw (.drawRect 10 190 300 30 .WHITE),
       .draw (.fillRect 12 192 width 26 bar_color),
       .draw (.setTextColor .WHITE),
       .draw (.setCursor 130 195),
       .draw (.print (.fmtInt "Luz: %d%%" level)),
       .give .displayMutex]
    else [])
  else [])

/-- Whether an event is a call of the display driver. -/
def Event.isDraw : Event → Bool
  | .draw _ => true
  | _ => false

/-- Scans a trace and tells whether every call of the display driver happens
while lock `l` is held: after a successful `take l` and before the next
`give l`.  `held` is the state of the lock where the trace starts. -/
def drawsWhileHolding (l : Lock) : Bool → List Event → Bool
  | _, [] => true
  | held, .take l' ok :: es =>
    drawsWhileHolding l (if l' = l ∧ ok = true then true else held) es
  | held, .give l' :: es =>
    drawsWhileHolding l (if l' = l then false else held) es
  | held, .draw _ :: es => held && drawsWhileHolding l held es
  | held, _ :: es => drawsWhileHolding l held es

/-- Scans a trace and tells whether no call of the display driver happens
while lock `l` is held. -/
def noDrawWhileHolding (l : Lock) : Bool → List Event → Bool
  | _, [] => true
  | held, .take l' ok :: es =>
    noDrawWhileHolding l (if l' = l ∧ ok = true then true else held) es
  | held, .give l' :: es =>
    noDrawWhileHolding l (if l' = l then false else held) es
  | held, .draw _ :: es => !held && noDrawWhileHolding l held es
  | held, _ :: es => noDrawWhileHolding l held es

/-- The number of acquire attempts on lock `l` in a trace. -/
def takeCount (l : Lock) (es : List Event) : Nat :=
  (es.filter (fun e => match e with
    | .take l' _ => decide (l' = l)
    | _ => false)).length

/-- The number of releases of lock `l` in a trace. -/
def giveCount (l : Lock) (es : List Event) : Nat :=
  (es.filter (fun e => match e with
    | .give l' => decide (l' = l)
    | _ => false)).length

/-! ## Closed forms used in the proofs -/

/-- The voltage `read_ldr` computes, in closed form. -/
def ldrVoltage (adc_value : Nat) : ℚ := (adc_value : ℚ) * VCC / 4095

/-- The resistance `read_ldr` computes, in closed form. -/
def ldrResistance (adc_value : Nat) : ℚ :=
  if ldrVoltage adc_value < VCC ∧ ldrVoltage adc_value > 0 then
    FIXED_RESISTOR * ldrVoltage adc_value / (VCC - ldrVoltage adc_value)
  else 0

/-- The current `read_ldr` computes, in closed form. -/
def ldrCurrent (adc_value : Nat) : ℚ :=
  if ldrResistance adc_value > 0 then
    ldrVoltage adc_value / ldrResistance adc_value * 1000
  else 0

/-- The current one pass of `sensor_task` computes, in closed form. -/
def taskCurrent (adc_raw : Nat) (sin_tc : ℚ) : ℚ :=
  if 1000 + 500 * sin_tc > 0 then
    (adc_raw : ℚ) * (33 / 10) / 4095 / (1000 + 500 * sin_tc) * 1000
  else 0

/-! ## Acquisition arithmetic (C1, C2, C3, C4, C10) -/

/-- A division by a non-zero denominator is evaluated. -/
theorem fdiv_of_ne (a : ℚ) {b : ℚ} (hb : b ≠ 0) : fdiv a b = some (a / b) := by
  simp [fdiv, hb]

/-- Strictly between the rails the closed-form resistance is positive. -/
theorem ldrResistance_pos_of_mid {adc : Nat}
    (h : ldrVoltage adc < VCC ∧ ldrVoltage adc > 0) : 0 < ldrResistance adc := by
  have h1 : 0 < VCC - ldrVoltage adc := by linarith [h.1]
  have h2 : 0 < FIXED_RESISTOR * ldrVoltage adc := by
    have : (0 : ℚ) < FIXED_RESISTOR := by norm_num [FIXED_RESISTOR]
    exact mul_pos this h.2
  simp only [ldrResistance, if_pos h]
  exact div_pos h2 h1

/-- For every ADC code `read_ldr` returns the closed-form measurement. -/
theorem read_ldr_eq (adc : Nat) :
    read_ldr adc = some ⟨ldrVoltage adc, ldrResistance adc, ldrCurrent adc⟩ := by
  have h4095 : (4095 : ℚ) ≠ 0 := by norm_num
  by_cases h : ldrVoltage adc < VCC ∧ ldrVoltage adc > 0
  · have hr := ldrResistance_pos_of_mid h
    have hd : VCC - ldrVoltage adc ≠ 0 := by linarith [h.1]
    have hr0 : ldrResistance adc ≠ 0 := ne_of_gt hr
    have hrv : ldrResistance adc =
        FIXED_RESISTOR * ldrVoltage adc / (VCC - ldrVoltage adc) := by
      simp only [ldrResistance, if_pos h]
    have hc : ldrCurrent adc = ldrVoltage adc / ldrResistance adc * 1000 := by
      simp only [ldrCurrent, if_pos hr]
    rw [hc]
    rw [hrv] at hr hr0 ⊢
    unfold ldrVoltage at *
    simp [read_ldr, fdiv_of_ne _ h4095, fdiv_of_ne _ hd, fdiv_of_ne _ hr0, h, hr]
  · have hrv : ldrResistance adc = 0 := by
      simp only [ldrResistance, if_neg h]
    have hc : ldrCurrent adc = 0 := by
      simp [ldrCurrent, hrv]
    rw [hc, hrv]
    unfold ldrVoltage at h ⊢
    simp only [read_ldr, Option.bind_eq_bind, Option.some_bind, fdiv_of_ne _ h4095,
      Option.pure_def, if_neg h]
    simp

/-- The voltage is the ADC code scaled by `3.3 / 4095`. -/
theorem ldrVoltage_eq (adc : Nat) : ldrVoltage adc = (adc : ℚ) * (11 / 13650) := by
  unfold ldrVoltage VCC; ring

/-- The voltage lies strictly between the rails exactly for codes `1 .. 4094`. -/
theorem ldrVoltage_mid_iff (adc : Nat) :
    (ldrVoltage adc < VCC ∧ ldrVoltage adc > 0) ↔ (0 < adc ∧ adc < 4095) := by
  rw [ldrVoltage_eq]
  unfold VCC
  constructor
  · rintro ⟨h1, h2⟩
    have ha : (0 : ℚ) < adc := by
      by_contra hc
      have : (adc : ℚ) ≤ 0 := not_lt.mp hc
      nlinarith
    have hb : (adc : ℚ) < 4095 := by linarith
    exact ⟨by exact_mod_cast ha, by exact_mod_cast hb⟩
  · rintro ⟨h1, h2⟩
    have ha : (0 : ℚ) < adc := by exact_mod_cast h1
    have hb : (adc : ℚ) < 4095 := by exact_mod_cast h2
    constructor <;> linarith

/-- For every ADC code and every value of `sin(time_counter)` one pass of
`sensor_task` computes the closed-form measurement. -/
theorem sensor_task_measure_eq (adc : Nat) (s : ℚ) :
    sensor_task_measure adc s =
      some ⟨(adc : ℚ) * (33 / 10) / 4095, 1000 + 500 * s, taskCurrent adc s⟩ := by
  have h4095 : (4095 : ℚ) ≠ 0 := by norm_num
  by_cases h : 1000 + 500 * s > 0
  · have h0 : 1000 + 500 * s ≠ 0 := ne_of_gt h
    simp only [sensor_task_measure, Option.bind_eq_bind, Option.some_bind,
      fdiv_of_ne _ h4095, fdiv_of_ne _ h0, Option.pure_def, if_pos h, taskCurrent,
      Option.map_some']
  · simp only [sensor_task_measure, Option.bind_eq_bind, Option.some_bind,
      fdiv_of_ne _ h4095, Option.pure_def, if_neg h, taskCurrent]

/-- C2: both acquisition routines (`read_ldr`, and the loop body of
`sensor_task` for any value of `sin(time_counter)`) return a measurement (the
division by the resistance is never evaluated at `0`) whose current is `0` when
the resistance is not positive and `voltage / resistance * 1000` when it is
positive. -/
theorem current_contract (adc : Nat) (sin_tc : ℚ) :
    (∃ d : SensorData, read_ldr adc = some d ∧
      (d.resistance ≤ 0 → d.current = 0) ∧
      (0 < d.resistance → d.current = d.voltage / d.resistance * 1000)) ∧
    (∃ e : sensor_data_t, sensor_task_measure adc sin_tc = some e ∧
      (e.resistance ≤ 0 → e.current = 0) ∧
      (0 < e.resistance → e.current = e.voltage / e.resistance * 1000)) := by
  refine ⟨⟨_, read_ldr_eq adc, ?_, ?_⟩, ⟨_, sensor_task_measure_eq adc sin_tc, ?_, ?_⟩⟩
  · intro h
    show ldrCurrent adc = 0
    have hn : ¬ ldrResistance adc > 0 := not_lt.mpr h
    simp only [ldrCurrent, if_neg hn]
  · intro h
    show ldrCurrent adc = _
    have hp : ldrResistance adc > 0 := h
    simp only [ldrCurrent, if_pos hp]
  · intro h
    show taskCurrent adc sin_tc = 0
    have hn : ¬ 1000 + 500 * sin_tc > 0 := not_lt.mpr h
    simp only [taskCurrent, if_neg hn]
  · intro h
    show taskCurrent adc sin_tc = _
    have hp : 1000 + 500 * sin_tc > 0 := h
    simp only [taskCurrent, if_pos hp]

/-- C2, witness: both branches of the guard, in both routines. -/
theorem current_contract_witness :
    (∃ d : SensorData, read_ldr 0 = some d ∧ d.resistance ≤ 0 ∧ d.current = 0) ∧
    (∃ d : SensorData, read_ldr 2048 = some d ∧ 0 < d.resistance ∧
      d.current = d.voltage / d.resistance * 1000) ∧
    (∃ e : sensor_data_t, sensor_task_measure 2048 (-2) = some e ∧ e.resistance ≤ 0 ∧
      e.current = 0) ∧
    (∃ e : sensor_data_t, sensor_task_measure 2048 (1 / 2) = some e ∧ 0 < e.resistance ∧
      e.current = e.voltage / e.resistance * 1000) := by
  refine ⟨?_, ?_, ?_, ?_⟩
  · obtain ⟨⟨d, hd, hz, -⟩, -⟩ := current_contract 0 0
    have hr : d.resistance ≤ 0 := by
      have := read_ldr_eq 0
      rw [hd] at this
      cases this
      simp [ldrResistance, ldrVoltage]
    exact ⟨d, hd, hr, hz hr⟩
  · obtain ⟨⟨d, hd, -, hp⟩, -⟩ := current_contract 2048 0
    have hr : 0 < d.resistance := by
      have := read_ldr_eq 2048
      rw [hd] at this
      cases this
      norm_num [ldrResistance, ldrVoltage, VCC, FIXED_RESISTOR]
    exact ⟨d, hd, hr, hp hr⟩
  · obtain ⟨-, e, he, hz, -⟩ := current_contract 2048 (-2)
    have hr : e.resistance ≤ 0 := by
      have := sensor_task_measure_eq 2048 (-2)
      rw [he] at this
      cases this
      norm_num
    exact ⟨e, he, hr, hz hr⟩
  · obtain ⟨-, e, he, -, hp⟩ := current_contract 2048 (1 / 2)
    have hr : 0 < e.resistance := by
      have := sensor_task_measure_eq 2048 (1 / 2)
      rw [he] at this
      cases this
      norm_num
    exact ⟨e, he, hr, hp hr⟩

/-- C3: for ADC codes `raw1 ≤ raw2 ≤ 4095` both acquisition routines compute
`voltage = raw * 3.3 / 4095`, with `0 ≤ voltage raw1 ≤ voltage raw2 ≤ 3.3`, the
voltage of code `0` being `0` and that of code `4095` being `3.3`. -/
theorem voltage_monotone_bounded (raw1 raw2 : Nat) (s1 s2 : ℚ)
    (h12 : raw1 ≤ raw2) (h2 : raw2 ≤ 4095) :
    ∃ (d1 d2 : SensorData) (e1 e2 : sensor_data_t),
      read_ldr raw1 = some d1 ∧ read_ldr raw2 = some d2 ∧
      sensor_task_measure raw1 s1 = some e1 ∧ sensor_task_measure raw2 s2 = some e2 ∧
      d1.voltage = (raw1 : ℚ) * (33 / 10) / 4095 ∧ e1.voltage = (raw1 : ℚ) * (33 / 10) / 4095 ∧
      d2.voltage = (raw2 : ℚ) * (33 / 10) / 4095 ∧ e2.voltage = (raw2 : ℚ) * (33 / 10) / 4095 ∧
      0 ≤ d1.voltage ∧ d1.voltage ≤ d2.voltage ∧ d2.voltage ≤ 33 / 10 ∧
      0 ≤ e1.voltage ∧ e1.voltage ≤ e2.voltage ∧ e2.voltage ≤ 33 / 10 ∧
      (raw1 = 0 → d1.voltage = 0 ∧ e1.voltage = 0) ∧
      (raw2 = 4095 → d2.voltage = 33 / 10 ∧ e2.voltage = 33 / 10) := by
  have ha : (0 : ℚ) ≤ raw1 := Nat.cast_nonneg raw1
  have hb : (raw1 : ℚ) ≤ raw2 := by exact_mod_cast h12
  have hc : (raw2 : ℚ) ≤ 4095 := by exact_mod_cast h2
  refine ⟨_, _, _, _, read_ldr_eq raw1, read_ldr_eq raw2, sensor_task_measure_eq raw1 s1,
    sensor_task_measure_eq raw2 s2, rfl, rfl, rfl, rfl, ?_, ?_, ?_, ?_, ?_, ?_, ?_, ?_⟩
  · show 0 ≤ ldrVoltage raw1
    rw [ldrVoltage_eq]; linarith
  · show ldrVoltage raw1 ≤ ldrVoltage raw2
    rw [ldrVoltage_eq, ldrVoltage_eq]; linarith
  · show ldrVoltage raw2 ≤ 33 / 10
    rw [ldrVoltage_eq]; linarith
  · show (0 : ℚ) ≤ (raw1 : ℚ) * (33 / 10) / 4095
    linarith
  · show (raw1 : ℚ) * (33 / 10) / 4095 ≤ (raw2 : ℚ) * (33 / 10) / 4095
    linarith
  · show (raw2 : ℚ) * (33 / 10) / 4095 ≤ 33 / 10
    linarith
  · intro h
    subst h
    refine ⟨?_, ?_⟩
    · show ldrVoltage 0 = 0
      simp [ldrVoltage]
    · show ((0 : Nat) : ℚ) * (33 / 10) / 4095 = 0
      simp
  · intro h
    subst h
    refine ⟨?_, ?_⟩
    · show ldrVoltage 4095 = 33 / 10
      norm_num [ldrVoltage, VCC]
    · show ((4095 : Nat) : ℚ) * (33 / 10) / 4095 = 33 / 10
      norm_num

/-- C3, witness: the two ends of the range, codes `0` and `4095`. -/
theorem voltage_monotone_bounded_witness :
    ∃ (d1 d2 : SensorData) (e1 e2 : sensor_data_t),
      read_ldr 0 = some d1 ∧ read_ldr 4095 = some d2 ∧
      sensor_task_measure 0 0 = some e1 ∧ sensor_task_measure 4095 1 = some e2 ∧
      d1.voltage = 0 ∧ e1.voltage = 0 ∧ d2.voltage = 33 / 10 ∧ e2.voltage = 33 / 10 := by
  obtain ⟨d1, d2, e1, e2, h1, h2, h3, h4, -, -, -, -, -, -, -, -, -, -, hz, hf⟩ :=
    voltage_monotone_bounded 0 4095 0 1 (by decide) (by decide)
  exact ⟨d1, d2, e1, e2, h1, h2, h3, h4, (hz rfl).1, (hz rfl).2, (hf rfl).1, (hf rfl).2⟩

/-- C4, counterexample: for code `2048` `read_ldr` returns voltage `11264/6825`,
resistance `20480000/2047` and current `22517/136500`, none of which is within
the stated tolerance of `1.6502`, `9708.7` and `0.1700`. -/
theorem read_ldr_2048_not_spec_values :
    read_ldr 2048 = some ⟨11264 / 6825, 20480000 / 2047, 22517 / 136500⟩ ∧
    ¬ (|(11264 / 6825 : ℚ) - 16502 / 10000| < 5 / 100000) ∧
    ¬ (|(20480000 / 2047 : ℚ) - 97087 / 10| < 5 / 100) ∧
    ¬ (|(22517 / 136500 : ℚ) - 1700 / 10000| < 5 / 100000) := by
  refine ⟨?_, ?_, ?_, ?_⟩
  · rw [read_ldr_eq]
    norm_num [ldrVoltage, ldrResistance, ldrCurrent, VCC, FIXED_RESISTOR]
  · norm_num [abs_lt]
  · norm_num [abs_lt]
  · norm_num [abs_lt]

/-- C4, amended: for code `2048` `read_ldr` returns voltage ≈ `1.6504`,
resistance ≈ `10004.9` and current ≈ `0.1650`, each within half a unit of the
last decimal place given. -/
theorem read_ldr_2048_values :
    ∃ d : SensorData, read_ldr 2048 = some d ∧
      |d.voltage - 16504 / 10000| < 5 / 100000 ∧
      |d.resistance - 100049 / 10| < 5 / 100 ∧
      |d.current - 1650 / 10000| < 5 / 100000 := by
  refine ⟨_, read_ldr_eq 2048, ?_, ?_, ?_⟩
  · show |ldrVoltage 2048 - _| < _
    norm_num [ldrVoltage, VCC, abs_lt]
  · show |ldrResistance 2048 - _| < _
    norm_num [ldrResistance, ldrVoltage, VCC, FIXED_RESISTOR, abs_lt]
  · show |ldrCurrent 2048 - _| < _
    norm_num [ldrCurrent, ldrResistance, ldrVoltage, VCC, FIXED_RESISTOR, abs_lt]

/-- Between the rails the resistance is `FIXED_RESISTOR * raw / (4095 - raw)`. -/
theorem ldrResistance_mid {adc : Nat} (h0 : 0 < adc) (h1 : adc < 4095) :
    ldrResistance adc = FIXED_RESISTOR * (adc : ℚ) / (4095 - (adc : ℚ)) := by
  have h := (ldrVoltage_mid_iff adc).mpr ⟨h0, h1⟩
  have hb : (adc : ℚ) < 4095 := by exact_mod_cast h1
  have hd : (4095 : ℚ) - adc ≠ 0 := by linarith
  simp only [ldrResistance, if_pos h]
  have hd2 : VCC - ldrVoltage adc ≠ 0 := by linarith [h.1]
  rw [div_eq_div_iff hd2 hd]
  unfold ldrVoltage VCC FIXED_RESISTOR
  ring

/-- Between the rails the current is `0.33 * (4095 - raw) / 4095`. -/
theorem ldrCurrent_mid {adc : Nat} (h0 : 0 < adc) (h1 : adc < 4095) :
    ldrCurrent adc = 33 / 100 * (4095 - (adc : ℚ)) / 4095 := by
  have h := (ldrVoltage_mid_iff adc).mpr ⟨h0, h1⟩
  have hr := ldrResistance_pos_of_mid h
  have ha : (0 : ℚ) < adc := by exact_mod_cast h0
  have hb : (adc : ℚ) < 4095 := by exact_mod_cast h1
  have hd : (4095 : ℚ) - adc ≠ 0 := by linarith
  have ha0 : (adc : ℚ) ≠ 0 := ne_of_gt ha
  simp only [ldrCurrent, if_pos hr]
  rw [ldrResistance_mid h0 h1, ldrVoltage_eq]
  unfold FIXED_RESISTOR
  field_simp
  ring

/-- C10: for ADC codes `0 < raw1 ≤ raw2 < 4095`, the current `read_ldr`
returns at `raw1` is `(VCC - voltage) / FIXED_RESISTOR * 1000`, that is
`0.33 * (4095 - raw1) / 4095`, lies strictly between `0` and `0.33`, the
resistance is `FIXED_RESISTOR * raw1 / (4095 - raw1)`, and when `raw1 < raw2`
the current at `raw2` is strictly smaller than at `raw1`. -/
theorem current_divider_identity (raw1 raw2 : Nat)
    (h0 : 0 < raw1) (h12 : raw1 ≤ raw2) (h2 : raw2 < 4095) :
    ∃ d1 d2 : SensorData, read_ldr raw1 = some d1 ∧ read_ldr raw2 = some d2 ∧
      d1.current = (VCC - d1.voltage) / FIXED_RESISTOR * 1000 ∧
      d1.current = 33 / 100 * (4095 - (raw1 : ℚ)) / 4095 ∧
      0 < d1.current ∧ d1.current < 33 / 100 ∧
      d1.resistance = FIXED_RESISTOR * (raw1 : ℚ) / (4095 - (raw1 : ℚ)) ∧
      (raw1 < raw2 → d2.current < d1.current) := by
  have h1 : raw1 < 4095 := lt_of_le_of_lt h12 h2
  have h02 : 0 < raw2 := lt_of_lt_of_le h0 h12
  have ha : (0 : ℚ) < raw1 := by exact_mod_cast h0
  have hb : (raw1 : ℚ) < 4095 := by exact_mod_cast h1
  refine ⟨_, _, read_ldr_eq raw1, read_ldr_eq raw2, ?_, ?_, ?_, ?_, ?_, ?_⟩
  · show ldrCurrent raw1 = (VCC - ldrVoltage raw1) / FIXED_RESISTOR * 1000
    rw [ldrCurrent_mid h0 h1, ldrVoltage_eq]
    unfold VCC FIXED_RESISTOR
    ring
  · exact ldrCurrent_mid h0 h1
  · show 0 < ldrCurrent raw1
    rw [ldrCurrent_mid h0 h1]; linarith
  · show ldrCurrent raw1 < 33 / 100
    rw [ldrCurrent_mid h0 h1]; linarith
  · exact ldrResistance_mid h0 h1
  · intro hlt
    show ldrCurrent raw2 < ldrCurrent raw1
    have hc : (raw1 : ℚ) < raw2 := by exact_mod_cast hlt
    rw [ldrCurrent_mid h0 h1, ldrCurrent_mid h02 h2]
    linarith

/-- C10, witness: codes `1` and `4094`. -/
theorem current_divider_identity_witness :
    ∃ d1 d2 : SensorData, read_ldr 1 = some d1 ∧ read_ldr 4094 = some d2 ∧
      d1.current = 33 / 100 * (4095 - 1) / 4095 ∧ d2.current < d1.current := by
  obtain ⟨d1, d2, h1, h2, -, hc, -, -, -, hlt⟩ :=
    current_divider_identity 1 4094 (by decide) (by decide) (by decide)
  exact ⟨d1, d2, h1, h2, by simpa using hc, hlt (by decide)⟩

/-! ## Start-up and the shared store (C5, C6) -/

/-- C5: the `main` of the store variant starts the scheduler exactly when the
mutex and both tasks were created; the `main` of the queue variant starts it
whatever the creations returned, in particular after `xQueueCreate` failed. -/
theorem queue_main_starts_scheduler_after_failed_creation :
    (∀ mutexOk sensorOk displayOk : Bool,
      MainEvent.startScheduler ∈ store_main mutexOk sensorOk displayOk ↔
        (mutexOk = true ∧ sensorOk = true ∧ displayOk = true)) ∧
    MainEvent.createQueue false ∈ queue_main false true true true ∧
    MainEvent.startScheduler ∈ queue_main false true true true ∧
    (∀ queueOk mutexOk sensorOk displayOk : Bool,
      MainEvent.startScheduler ∈ queue_main queueOk mutexOk sensorOk displayOk) := by
  refine ⟨by decide, by decide, by decide, by decide⟩

/-- One pass of `sensor_task` always completes: the store takes the new
measurement when the lock was obtained and is kept otherwise. -/
theorem sensor_task_cycle_eq (sin : ℚ → ℚ) (st : SensorTaskState) (adc : Nat) (lockOk : Bool) :
    sensor_task_cycle sin st adc lockOk =
      some { sensor_readings :=
               if lockOk then
                 ⟨(adc : ℚ) * (33 / 10) / 4095, 1000 + 500 * sin st.time_counter,
                   taskCurrent adc (sin st.time_counter)⟩
               else st.sensor_readings,
             time_counter := st.time_counter + 1 / 10 } := by
  cases lockOk <;>
    simp [sensor_task_cycle, sensor_task_measure_eq]

/-- A run of `sensor_task` from an arbitrary state always completes; its store is
the starting one when every acquisition timed out, and otherwise the
measurement of the last cycle whose acquisition succeeded. -/
theorem sensor_task_run_from (sin : ℚ → ℚ) (cs : List (Nat × Bool)) :
    ∀ st0 : SensorTaskState, ∃ st : SensorTaskState,
      sensor_task_run sin st0 cs = some st ∧
      st.time_counter = st0.time_counter + (cs.length : ℚ) / 10 ∧
      (((∀ c ∈ cs, c.2 = false) ∧ st.sensor_readings = st0.sensor_readings) ∨
        ∃ (pre : List (Nat × Bool)) (adc : Nat) (post : List (Nat × Bool)),
          cs = pre ++ (adc, true) :: post ∧ (∀ c ∈ post, c.2 = false) ∧
          sensor_task_measure adc (sin (st0.time_counter + (pre.length : ℚ) / 10)) =
            some st.sensor_readings) := by
  induction cs with
  | nil =>
    intro st0
    exact ⟨st0, rfl, by simp, Or.inl ⟨by simp, rfl⟩⟩
  | cons c cs ih =>
    intro st0
    obtain ⟨adc, ok⟩ := c
    have hstep := sensor_task_cycle_eq sin st0 adc ok
    obtain ⟨st, hrun, htc, hstore⟩ := ih
      { sensor_readings :=
          if ok then
            ⟨(adc : ℚ) * (33 / 10) / 4095, 1000 + 500 * sin st0.time_counter,
              taskCurrent adc (sin st0.time_counter)⟩
          else st0.sensor_readings,
        time_counter := st0.time_counter + 1 / 10 }
    refine ⟨st, ?_, ?_, ?_⟩
    · simp only [sensor_task_run, hstep, Option.bind_eq_bind, Option.some_bind]
      exact hrun
    · rw [htc]
      simp only [List.length_cons, Nat.cast_add, Nat.cast_one]
      ring
    · rcases hstore with ⟨hall, hst⟩ | ⟨pre, a, post, hcs, hpost, hm⟩
      · cases ok with
        | false =>
          left
          refine ⟨?_, ?_⟩
          · intro c hc
            rcases List.mem_cons.mp hc with h | h
            · rw [h]
            · exact hall c h
          · rw [hst]; rfl
        | true =>
          right
          refine ⟨[], adc, cs, rfl, hall, ?_⟩
          rw [hst]
          simp [sensor_task_measure_eq]
      · right
        refine ⟨(adc, ok) :: pre, a, post, by rw [hcs]; rfl, hpost, ?_⟩
        rw [← hm]
        congr 2
        simp only [List.length_cons, Nat.cast_add, Nat.cast_one]
        ring

/-- C6: after any finite sequence of cycles of `sensor_task` the run has a final
state, and its store is either the initial `{0, 0, 0}` (every acquisition timed
out) or the whole measurement computed in the last cycle whose acquisition
succeeded; a cycle whose acquisition times out leaves the store unchanged. -/
theorem store_holds_initial_or_last_committed (sin : ℚ → ℚ) (cs : List (Nat × Bool)) :
    (∃ st : SensorTaskState,
      sensor_task_run sin SensorTaskState.init cs = some st ∧
      (((∀ c ∈ cs, c.2 = false) ∧ st.sensor_readings = ⟨0, 0, 0⟩) ∨
        ∃ (pre : List (Nat × Bool)) (adc : Nat) (post : List (Nat × Bool)),
          cs = pre ++ (adc, true) :: post ∧ (∀ c ∈ post, c.2 = false) ∧
          sensor_task_measure adc (sin ((pre.length : ℚ) / 10)) = some st.sensor_readings)) ∧
    (∀ (st0 : SensorTaskState) (adc : Nat), ∃ st1 : SensorTaskState,
      sensor_task_cycle sin st0 adc false = some st1 ∧
      st1.sensor_readings = st0.sensor_readings) := by
  refine ⟨?_, ?_⟩
  · obtain ⟨st, hrun, -, hstore⟩ := sensor_task_run_from sin cs SensorTaskState.init
    refine ⟨st, hrun, ?_⟩
    rcases hstore with ⟨hall, hst⟩ | ⟨pre, a, post, hcs, hpost, hm⟩
    · exact Or.inl ⟨hall, hst⟩
    · refine Or.inr ⟨pre, a, post, hcs, hpost, ?_⟩
      rw [← hm]
      simp [SensorTaskState.init]
  · intro st0 adc
    exact ⟨_, sensor_task_cycle_eq sin st0 adc false, rfl⟩

/-- C6, witness: a run of three cycles whose second acquisition times out; the
store ends with the measurement of the third cycle. -/
theorem store_holds_initial_or_last_committed_witness :
    ∃ st : SensorTaskState,
      sensor_task_run (fun _ => 0) SensorTaskState.init
        [(4095, true), (100, false), (2048, true)] = some st ∧
      sensor_task_measure 2048 0 = some st.sensor_readings := by
  obtain ⟨⟨st, hrun, hstore⟩, -⟩ :=
    store_holds_initial_or_last_committed (fun _ => 0) [(4095, true), (100, false), (2048, true)]
  refine ⟨st, hrun, ?_⟩
  rcases hstore with ⟨hall, -⟩ | ⟨pre, adc, post, hcs, hpost, hm⟩
  · exact absurd (hall (4095, true) (by simp)) (by simp)
  · have hrun2 : sensor_task_run (fun _ => 0) SensorTaskState.init
        [(4095, true), (100, false), (2048, true)] =
        some ⟨⟨(2048 : ℚ) * (33 / 10) / 4095, 1000 + 500 * 0, taskCurrent 2048 0⟩,
          0 + 1 / 10 + 1 / 10 + 1 / 10⟩ := by
      simp [sensor_task_run, sensor_task_cycle_eq, SensorTaskState.init]
    rw [hrun2] at hrun
    cases hrun
    exact sensor_task_measure_eq 2048 0

/-! ## The indicator bar (C7) -/

/-- A value within the 32-bit range is unchanged by wrapping. -/
theorem wrap32_of_range {z : Int} (h1 : -2147483648 ≤ z) (h2 : z < 2147483648) :
    wrap32 z = z := by
  unfold wrap32
  omega

/-- The value of `map x 100 10000 100 0` while the product fits 32 bits. -/
theorem map_of_small {x : Int} (h0 : 0 ≤ x) (h1 : x ≤ 21474936) :
    map x 100 10000 100 0 = 100 - (x * 100 - 10000) / 9900 ∨
    (x < 100 ∧ map x 100 10000 100 0 = 100 + (10000 - x * 100) / 9900) := by
  have e1 : wrap32 (x - 100) = x - 100 := wrap32_of_range (by omega) (by omega)
  have e2 : wrap32 ((0 : Int) - 100) = -100 := by decide
  have e3 : wrap32 ((10000 : Int) - 100) = 9900 := by decide
  have e4 : wrap32 ((x - 100) * -100) = (x - 100) * -100 :=
    wrap32_of_range (by omega) (by omega)
  unfold map
  rw [e1, e2, e3, e4]
  by_cases hx : 100 ≤ x
  · left
    have e5 : (x - 100) * -100 = -(x * 100 - 10000) := by ring
    rw [e5, Int.neg_tdiv, Int.tdiv_eq_ediv (by omega) (by decide)]
    have e6 : wrap32 (-((x * 100 - 10000) / 9900)) = -((x * 100 - 10000) / 9900) :=
      wrap32_of_range (by omega) (by omega)
    rw [e6, wrap32_of_range (by omega) (by omega)]
    omega
  · right
    refine ⟨by omega, ?_⟩
    have e5 : (x - 100) * -100 = 10000 - x * 100 := by ring
    rw [e5, Int.tdiv_eq_ediv (by omega) (by decide)]
    have e6 : wrap32 ((10000 - x * 100) / 9900) = (10000 - x * 100) / 9900 :=
      wrap32_of_range (by omega) (by omega)
    rw [e6, wrap32_of_range (by omega) (by omega)]
    omega

/-- The light level while the product in `map` fits 32 bits. -/
theorem light_level_of_small {x : Int} (h0 : 0 ≤ x) (h1 : x ≤ 21474936) :
    light_level x = if x < 100 then 100 else max 0 (100 - (x * 100 - 10000) / 9900) := by
  unfold light_level constrain
  rcases map_of_small h0 h1 with h | ⟨hx, h⟩
  · rw [h]
    split_ifs <;> omega
  · rw [h]
    split_ifs <;> omega


/-- The fill width for a light level within `0 .. 100`. -/
theorem bar_width_of_level {l : Int} (h0 : 0 ≤ l) (h1 : l ≤ 100) :
    bar_width l = l * 296 / 100 := by
  unfold bar_width
  rw [wrap32_of_range (by omega : -2147483648 ≤ l * 296) (by omega),
    Int.tdiv_eq_ediv (by omega) (by decide)]
  exact wrap32_of_range (by omega) (by omega)

/-- On the resistances for which the product in `map` stays within a 32-bit
`int` (`x ≤ 21474936`), the indicator bar is the clamped linear proportion of
the specification, up to the truncation of the integer division. -/
theorem light_level_is_clamped_proportion_of_small (x : Int)
    (h0 : 0 ≤ x) (h1 : x ≤ 21474936) :
    0 ≤ light_level x ∧ light_level x ≤ 100 ∧
    |((light_level x : Int) : ℚ) - 100 * specProportion (x : ℚ) 10000 100| < 1 ∧
    bar_width (light_level x) = light_level x * 296 / 100 ∧
    0 ≤ bar_width (light_level x) ∧ bar_width (light_level x) ≤ 296 := by
  have hl := light_level_of_small h0 h1
  have hb0 : 0 ≤ light_level x := by rw [hl]; split_ifs <;> omega
  have hb1 : light_level x ≤ 100 := by rw [hl]; split_ifs <;> omega
  have hw := bar_width_of_level hb0 hb1
  refine ⟨hb0, hb1, ?_, hw, by rw [hw]; omega, by rw [hw]; omega⟩
  have hx0 : (0 : ℚ) ≤ (x : ℚ) := by exact_mod_cast h0
  by_cases hx : x < 100
  · have hxq : (x : ℚ) < 100 := by exact_mod_cast hx
    have hp : specProportion (x : ℚ) 10000 100 = 1 := by
      unfold specProportion
      have : (1 : ℚ) ≤ ((x : ℚ) - 10000) / (100 - 10000) := by
        rw [le_div_iff_of_neg (by norm_num)]
        linarith
      rw [min_eq_left this]
      norm_num
    rw [hl, if_pos hx, hp]
    norm_num
  · have hx' : 100 ≤ x := not_lt.mp hx
    have hxq : (100 : ℚ) ≤ (x : ℚ) := by exact_mod_cast hx'
    obtain ⟨q, hq⟩ : ∃ q : Int, q = (x * 100 - 10000) / 9900 := ⟨_, rfl⟩
    have hq1 : q * 9900 ≤ x * 100 - 10000 := by omega
    have hq2 : x * 100 - 10000 < q * 9900 + 9900 := by omega
    have hq1' : (q : ℚ) * 9900 ≤ (x : ℚ) * 100 - 10000 := by exact_mod_cast hq1
    have hq2' : (x : ℚ) * 100 - 10000 < (q : ℚ) * 9900 + 9900 := by exact_mod_cast hq2
    have hp : 100 * specProportion (x : ℚ) 10000 100 =
        max 0 (100 - ((x : ℚ) * 100 - 10000) / 9900) := by
      unfold specProportion
      have hle : ((x : ℚ) - 10000) / (100 - 10000) ≤ 1 := by
        rw [div_le_iff_of_neg (by norm_num)]
        linarith
      rw [min_eq_right hle]
      rcases le_total (((x : ℚ) - 10000) / (100 - 10000)) 0 with h | h
      · rw [max_eq_left h]
        have : 100 - ((x : ℚ) * 100 - 10000) / 9900 ≤ 0 := by
          have e : 100 - ((x : ℚ) * 100 - 10000) / 9900 =
              100 * (((x : ℚ) - 10000) / (100 - 10000)) := by
            field_simp; ring
          rw [e]; linarith
        rw [max_eq_left this]; ring
      · rw [max_eq_right h]
        have e : 100 - ((x : ℚ) * 100 - 10000) / 9900 =
            100 * (((x : ℚ) - 10000) / (100 - 10000)) := by
          field_simp; ring
        have : 0 ≤ 100 - ((x : ℚ) * 100 - 10000) / 9900 := by rw [e]; linarith
        rw [max_eq_right this, e]
    rw [hp, hl, if_neg hx, ← hq]
    have ht1 : (q : ℚ) ≤ ((x : ℚ) * 100 - 10000) / 9900 := by
      rw [le_div_iff₀ (by norm_num)]; linarith
    have ht2 : ((x : ℚ) * 100 - 10000) / 9900 < (q : ℚ) + 1 := by
      rw [div_lt_iff₀ (by norm_num)]; linarith
    push_cast
    rw [abs_lt]
    rcases le_total (100 - (q : ℚ)) 0 with h | h
    · rw [max_eq_left h]
      rcases le_total (100 - ((x : ℚ) * 100 - 10000) / 9900) 0 with h' | h'
      · rw [max_eq_left h']; norm_num
      · rw [max_eq_right h']; constructor <;> linarith
    · rw [max_eq_right h]
      rcases le_total (100 - ((x : ℚ) * 100 - 10000) / 9900) 0 with h' | h'
      · rw [max_eq_left h']; constructor <;> linarith
      · rw [max_eq_right h']; constructor <;> linarith

/-- C7: at the resistance `read_ldr` returns for ADC code `4094`, converted to
the `int` `40940000`, the product in `map` leaves the 32-bit range: `map` yields
`20400`, the light level is `100` and the bar is filled over its whole width
`296`, whereas the clamped proportion of the specification is `0`. -/
theorem light_level_wraps_at_code_4094 :
    (∃ d : SensorData, read_ldr 4094 = some d ∧ truncToInt d.resistance = 40940000) ∧
    map 40940000 100 10000 100 0 = 20400 ∧
    light_level 40940000 = 100 ∧
    bar_width (light_level 40940000) = 296 ∧
    specProportion 40940000 10000 100 = 0 := by
  refine ⟨⟨_, read_ldr_eq 4094, ?_⟩, by decide, by decide, by decide, ?_⟩
  · show truncToInt (ldrResistance 4094) = 40940000
    have h : ldrResistance 4094 = 40940000 := by
      norm_num [ldrResistance, ldrVoltage, VCC, FIXED_RESISTOR]
    rw [h]
    simp [truncToInt]
  · norm_num [specProportion]

/-! ## Lock discipline of the presentation tasks (C8, C9) -/

/-- C8, counterexample: an iteration of `display_task` (store variant) that
obtained the data lock calls the display driver although it never acquires a
display lock. -/
theorem display_task_draws_without_display_lock :
    drawsWhileHolding .displayMutex false (display_task_iteration true ⟨0, 0, 0⟩) = false ∧
    takeCount .displayMutex (display_task_iteration true ⟨0, 0, 0⟩) = 0 ∧
    Event.draw (.fillRect 20 100 280 120 .BLACK) ∈ display_task_iteration true ⟨0, 0, 0⟩ := by
  refine ⟨by rfl, by rfl, ?_⟩
  simp [display_task_iteration]

/-- C8, amended: an iteration of `vTaskDisplay` (queue variant) calls the
display driver only between a successful acquire of `displayMutex` and its
release, one acquire/release pair enclosing the fourteen calls of the render
sequence, and not at all when the receive or the acquire failed; an iteration
of `display_task` (store variant) never acquires or releases a display lock. -/
theorem vTaskDisplay_draws_under_display_lock (recvOk takeOk : Bool) (data : SensorData)
    (lockOk : Bool) (v : sensor_data_t) :
    drawsWhileHolding .displayMutex false (vTaskDisplay_iteration recvOk takeOk data) = true ∧
    takeCount .displayMutex (vTaskDisplay_iteration recvOk takeOk data) =
      (if recvOk then 1 else 0) ∧
    giveCount .displayMutex (vTaskDisplay_iteration recvOk takeOk data) =
      (if recvOk && takeOk then 1 else 0) ∧
    (∃ render : List Event,
      vTaskDisplay_iteration true true data =
        [.queueReceive true, .take .displayMutex true] ++ render ++ [.give .displayMutex] ∧
      render.length = 14 ∧ (∀ e ∈ render, e.isDraw = true)) ∧
    (∀ e ∈ vTaskDisplay_iteration recvOk takeOk data,
      e.isDraw = true → recvOk = true ∧ takeOk = true) ∧
    takeCount .displayMutex (display_task_iteration lockOk v) = 0 ∧
    giveCount .displayMutex (display_task_iteration lockOk v) = 0 := by
  refine ⟨?_, ?_, ?_, ?_, ?_, ?_, ?_⟩
  · cases recvOk <;> cases takeOk <;> rfl
  · cases recvOk <;> cases takeOk <;> rfl
  · cases recvOk <;> cases takeOk <;> rfl
  · refine ⟨((vTaskDisplay_iteration true true data).drop 2).dropLast, rfl, rfl, ?_⟩
    intro e he
    simp [vTaskDisplay_iteration] at he
    rcases he with h | h | h | h | h | h | h | h | h | h | h | h | h | h <;> (rw [h]; rfl)
  · intro e he hd
    cases recvOk <;> cases takeOk <;> simp [vTaskDisplay_iteration] at he <;>
      first
        | rfl
        | (exfalso; rcases he with h | h <;> (rw [h] at hd; simp [Event.isDraw] at hd))
        | (exfalso; rw [he] at hd; simp [Event.isDraw] at hd)
        | exact ⟨rfl, rfl⟩
  · cases lockOk <;> rfl
  · cases lockOk <;> rfl

/-- C9: in an iteration of `display_task` no call of the display driver happens
while `data_mutex` is held; the lock is held only for the copy of
`sensor_readings`, the eighteen driver calls follow its release, every
formatted value is a field of the copy and the bar width is computed from the
copy's voltage; when the acquire times out nothing is drawn. -/
theorem display_task_renders_from_copy_outside_data_lock (lockOk : Bool) (v : sensor_data_t) :
    noDrawWhileHolding .data_mutex false (display_task_iteration lockOk v) = true ∧
    (∃ render : List Event,
      display_task_iteration true v =
        [.take .data_mutex true, .copyStore v, .give .data_mutex] ++ render ++ [.delay 500] ∧
      render.length = 18 ∧
      (∀ e ∈ render, e.isDraw = true) ∧
      (∀ (f : String) (q : ℚ), Event.draw (.print (.fmt f q)) ∈ render →
        q = v.voltage ∨ q = v.resistance ∨ q = v.current) ∧
      (∀ (w : Int) (c : Color), Event.draw (.fillRect 20 200 w 15 c) ∈ render →
        w = 200 ∨ w = truncToInt ((v.voltage / (33 / 10)) * 200))) ∧
    display_task_iteration false v = [.take .data_mutex false, .delay 500] := by
  refine ⟨?_, ?_, rfl⟩
  · cases lockOk <;> rfl
  · refine ⟨((display_task_iteration true v).drop 3).dropLast, rfl, rfl, ?_, ?_, ?_⟩
    · intro e he
      simp [display_task_iteration] at he
      rcases he with h | h | h | h | h | h | h | h | h | h | h | h | h | h | h | h | h | h <;>
        (rw [h]; rfl)
    · intro f q he
      simp [display_task_iteration] at he
      rcases he with ⟨-, h⟩ | ⟨-, h⟩ | ⟨-, h⟩
      · exact Or.inl h
      · exact Or.inr (Or.inl h)
      · exact Or.inr (Or.inr h)
    · intro w c he
      simp [display_task_iteration] at he
      rcases he with ⟨h, -⟩ | ⟨h, -⟩
      · exact Or.inl h
      · exact Or.inr h

end LdrMonitor
